import Mathlib

/-!
Verification of the SPS-Enose backend (Rust) data pipeline: a shallow
embedding of `data_process.rs`, `arduino.rs` and `server.rs` in Lean 4,
with theorems checking the natural-language specification against it.

Modelling conventions:
* JSON numbers and the seven `f32` sensor channels are modelled as exact
  rationals (`ℚ`); `u64`/`i64` bounds are kept explicit where the source
  checks them.
* Rust `String` is modelled by Lean `String` (a list of characters);
  `char` case mapping and whitespace classification are modelled on the
  ASCII range, which covers the whole alias table of the source.
* `VecDeque<f32>` is a `List ℚ` whose head is the front (oldest) element;
  `push_back` appends, `pop_front` drops the head.
* Stateful methods of `DataProcessor` become functions that take and
  return the processor state.
-/

namespace Enose

/-! ## JSON values (model of `serde_json::Value`) -/

/-- A JSON value; numbers are exact rationals. -/
inductive Json where
  | null
  | bool (b : Bool)
  | num (q : ℚ)
  | str (s : String)
  | arr (elems : List Json)
  | obj (fields : List (String × Json))

/-- First binding of `key` in an object's field list. -/
def lookupField : List (String × Json) → String → Option Json
  | [], _ => none
  | f :: fs, key => if f.1 = key then some f.2 else lookupField fs key

/-- Model of `Value::get(key)` on an object: first binding of `key`. -/
def Json.getField : Json → String → Option Json
  | .obj fields, key => lookupField fields key
  | _, _ => none

/-- Model of `Value::as_str`. -/
def Json.asStr : Json → Option String
  | .str s => some s
  | _ => none

/-- A JSON number read as an `f32` field: any number is accepted
(floats are modelled as exact rationals). -/
def Json.asNum : Json → Option ℚ
  | .num q => some q
  | _ => none

/-- A JSON number read as a `u64` field: must be a non-negative integer
below `2^64`. -/
def Json.asU64 : Json → Option ℕ
  | .num q => if q.den = 1 ∧ 0 ≤ q.num ∧ q.num < 2 ^ 64 then some q.num.toNat else none
  | _ => none

/-- Model of `Value::as_i64`: an integer representable in 64 signed bits. -/
def Json.asI64 : Json → Option ℤ
  | .num q => if q.den = 1 ∧ -(2 ^ 63) ≤ q.num ∧ q.num < 2 ^ 63 then some q.num else none
  | _ => none

/-! ## Data structures of `data_process.rs` -/

/-- `SensorData` (data_process.rs lines 9-21): one validated reading. -/
structure SensorData where
  timestamp : ℕ
  sample : String
  co_m : ℚ
  eth_m : ℚ
  voc_m : ℚ
  no2 : ℚ
  eth_gm : ℚ
  voc_gm : ℚ
  co_gm : ℚ
deriving DecidableEq, Repr

/-- `StatusMessage` (data_process.rs lines 23-45). -/
structure StatusMessage where
  msg_type : String
  status : Option String
  message : Option String
  motor : Option String
  speed : Option ℤ
  current : Option ℤ
  total : Option ℤ
deriving DecidableEq, Repr

/-- The derived `Deserialize` for `SensorData`, as `serde_json::from_value`
runs it.  The `timestamp` field carries `#[serde(alias = "timestamp")]`,
an alias identical to the field's own name, so the only accepted key for
it is `"timestamp"`; unknown keys such as `"ts"` are ignored.  Every field
is required; any missing or ill-typed field fails the whole decode. -/
def parseSensorData (j : Json) : Option SensorData := do
  let ts ← (j.getField ("timestamp")).bind Json.asU64
  let sample ← (j.getField ("sample")).bind Json.asStr
  let com ← (j.getField ("co_m")).bind Json.asNum
  let ethm ← (j.getField ("eth_m")).bind Json.asNum
  let vocm ← (j.getField ("voc_m")).bind Json.asNum
  let no2v ← (j.getField ("no2")).bind Json.asNum
  let ethgm ← (j.getField ("eth_gm")).bind Json.asNum
  let vocgm ← (j.getField ("voc_gm")).bind Json.asNum
  let cogm ← (j.getField ("co_gm")).bind Json.asNum
  pure { timestamp := ts, sample := sample, co_m := com, eth_m := ethm,
         voc_m := vocm, no2 := no2v, eth_gm := ethgm, voc_gm := vocgm,
         co_gm := cogm }

/-! ## Character-level helpers for `normalize_sample_name`

Rust's `char::to_lowercase` / `to_uppercase` and `char::is_whitespace`
restricted to the ASCII range (all strings in the source's alias table
are ASCII). -/

/-- ASCII lower-casing of one character. -/
def lowerChar (c : Char) : Char :=
  if 65 ≤ c.toNat ∧ c.toNat ≤ 90 then Char.ofNat (c.toNat + 32) else c

/-- ASCII upper-casing of one character. -/
def upperChar (c : Char) : Char :=
  if 97 ≤ c.toNat ∧ c.toNat ≤ 122 then Char.ofNat (c.toNat - 32) else c

/-- ASCII whitespace (model of `char::is_whitespace`). -/
def isWS (c : Char) : Bool :=
  c.toNat = 32 || c.toNat = 9 || c.toNat = 10 || c.toNat = 13 ||
  c.toNat = 11 || c.toNat = 12

/-- Model of `str::trim`. -/
def trimL (l : List Char) : List Char :=
  ((l.dropWhile isWS).reverse.dropWhile isWS).reverse

/-- Model of `str::to_lowercase` (ASCII). -/
def toLowerL (l : List Char) : List Char := l.map lowerChar

/-- Model of `str::split_whitespace`: maximal runs of non-whitespace. -/
def splitWS (l : List Char) : List (List Char) :=
  (l.splitOnP isWS).filter (fun w => !w.isEmpty)

/-- One word of the fallback branch: upper-case the first character,
keep the rest. -/
def capitalizeWord (w : List Char) : List Char :=
  match w with
  | [] => []
  | c :: cs => upperChar c :: cs

/-- Model of `Vec::join(" ")`: one space between consecutive words. -/
def joinSpace : List (List Char) → List Char
  | [] => []
  | [w] => w
  | w :: ws => w ++ ' ' :: joinSpace ws

/-- The fallback branch of `normalize_sample_name`: capitalize each
whitespace-separated word and join the words with single spaces. -/
def titleCase (l : List Char) : List Char :=
  joinSpace ((splitWS l).map capitalizeWord)

/-- `DataProcessor::normalize_sample_name` (data_process.rs lines
113-133): trim and lower-case the label, replace known aliases with
their canonical display names, otherwise title-case word by word. -/
def normalize_sample_name (name : String) : String :=
  let key := toLowerL (trimL name.data)
  if key = "kari".data ∨ key = "daun kari".data then "Daun Kari"
  else if key = "kemangi".data ∨ key = "daun kemangi".data then "Daun Kemangi"
  else if key = "jeruk".data ∨ key = "daun jeruk".data then "Daun Jeruk"
  else if key = "serai".data ∨ key = "daun serai".data then "Daun Serai"
  else String.mk (titleCase name.data)

/-! ## The `DataProcessor` -/

/-- `SensorBuffers` (data_process.rs lines 56-64): one sliding window
per channel, front = oldest. -/
structure SensorBuffers where
  co_m : List ℚ
  eth_m : List ℚ
  voc_m : List ℚ
  no2 : List ℚ
  eth_gm : List ℚ
  voc_gm : List ℚ
  co_gm : List ℚ
deriving DecidableEq, Repr

/-- `DataProcessor` (data_process.rs lines 51-54). -/
structure DataProcessor where
  window_size : ℕ
  buffers : SensorBuffers
deriving DecidableEq, Repr

/-- `DataProcessor::new` (lines 66-80): all buffers start empty. -/
def DataProcessor.new (window_size : ℕ) : DataProcessor :=
  { window_size := window_size,
    buffers := ⟨[], [], [], [], [], [], []⟩ }

/-- `DataProcessor::update_buffer` (lines 159-164): pop the front when
the buffer is already at the window size, then push the value at the
back. -/
def update_buffer (buffer : List ℚ) (value : ℚ) (window_size : ℕ) : List ℚ :=
  (if buffer.length ≥ window_size then buffer.drop 1 else buffer) ++ [value]

/-- `DataProcessor::calculate_average` (lines 166-172): 0 on an empty
buffer, else the sum divided by the length. -/
def calculate_average (buffer : List ℚ) : ℚ :=
  if buffer.isEmpty then 0 else buffer.sum / buffer.length

/-- `DataProcessor::apply_moving_average` (lines 135-157): push every
channel of the reading into its buffer, then rebuild the reading with
each channel replaced by its buffer's average; timestamp and sample are
copied through. -/
def apply_moving_average (p : DataProcessor) (data : SensorData) :
    DataProcessor × SensorData :=
  let bufs : SensorBuffers :=
    { co_m := update_buffer p.buffers.co_m data.co_m p.window_size,
      eth_m := update_buffer p.buffers.eth_m data.eth_m p.window_size,
      voc_m := update_buffer p.buffers.voc_m data.voc_m p.window_size,
      no2 := update_buffer p.buffers.no2 data.no2 p.window_size,
      eth_gm := update_buffer p.buffers.eth_gm data.eth_gm p.window_size,
      voc_gm := update_buffer p.buffers.voc_gm data.voc_gm p.window_size,
      co_gm := update_buffer p.buffers.co_gm data.co_gm p.window_size }
  ({ p with buffers := bufs },
   { timestamp := data.timestamp,
     sample := data.sample,
     co_m := calculate_average bufs.co_m,
     eth_m := calculate_average bufs.eth_m,
     voc_m := calculate_average bufs.voc_m,
     no2 := calculate_average bufs.no2,
     eth_gm := calculate_average bufs.eth_gm,
     voc_gm := calculate_average bufs.voc_gm,
     co_gm := calculate_average bufs.co_gm })

/-- `DataProcessor::process_sensor_data` (lines 95-111): decode the
frame; on success normalize the sample label and smooth; on a decode
error return `none` and leave the state untouched. -/
def process_sensor_data (p : DataProcessor) (json_value : Json) :
    DataProcessor × Option SensorData :=
  match parseSensorData json_value with
  | some raw_data =>
      let raw_data := { raw_data with sample := normalize_sample_name raw_data.sample }
      let out := apply_moving_average p raw_data
      (out.1, some out.2)
  | none => (p, none)

/-- `DataProcessor::process_status_message` (lines 174-223): start from
an all-`None` record tagged with the discriminator, then fill only the
fields of the discriminator's group from the payload. -/
def process_status_message (json_value : Json) (msg_type : String) : StatusMessage :=
  let status_msg : StatusMessage :=
    { msg_type := msg_type, status := none, message := none,
      motor := none, speed := none, current := none, total := none }
  if msg_type = "status" then
    { status_msg with
      status := (json_value.getField ("status")).bind Json.asStr,
      message := (json_value.getField ("msg")).bind Json.asStr }
  else if msg_type = "motor" then
    { status_msg with
      motor := (json_value.getField ("motor")).bind Json.asStr,
      speed := ((json_value.getField ("speed")).bind Json.asI64).map
        (fun i => (i + 2 ^ 31) % 2 ^ 32 - 2 ^ 31) }
  else if msg_type = "calib_progress" then
    { status_msg with
      current := ((json_value.getField ("current")).bind Json.asI64).map
        (fun i => (i + 2 ^ 31) % 2 ^ 32 - 2 ^ 31),
      total := ((json_value.getField ("total")).bind Json.asI64).map
        (fun i => (i + 2 ^ 31) % 2 ^ 32 - 2 ^ 31) }
  else status_msg

/-! ## The ingestion dispatch of `arduino.rs` -/

/-- `Message` (server.rs lines 8-13): the bus event type. -/
inductive Message where
  | SensorData (data : SensorData)
  | Status (status : StatusMessage)
  | Command (cmd : String)
deriving DecidableEq, Repr

/-- The per-frame dispatch of `handle_arduino` (arduino.rs lines 45-91)
after a successful `parse_arduino_json`: given the discriminator and the
payload, return the new processor state and the list of messages sent on
the bus for this frame. -/
def handle_arduino_frame (p : DataProcessor) (msg_type : String)
    (json_value : Json) : DataProcessor × List Message :=
  if msg_type = "data" then
    match process_sensor_data p json_value with
    | (p', some sensor_data) => (p', [Message.SensorData sensor_data])
    | (p', none) => (p', [])
  else if msg_type = "status" ∨ msg_type = "motor" ∨ msg_type = "calib_progress" then
    (p, [Message.Status (process_status_message json_value msg_type)])
  else
    (p, [])

/-! ## Runs of the smoother -/

/-- Feed a list of (already decoded) readings through
`apply_moving_average` in arrival order, collecting the outputs. -/
def run_processor (p : DataProcessor) : List SensorData → DataProcessor × List SensorData
  | [] => (p, [])
  | d :: ds =>
      let out := apply_moving_average p d
      let rest := run_processor out.1 ds
      (rest.1, out.2 :: rest.2)

/-- Feed a list of raw frame payloads through `process_sensor_data` in
arrival order, keeping only the processor state. -/
def process_frames (p : DataProcessor) : List Json → DataProcessor
  | [] => p
  | j :: js => process_frames (process_sensor_data p j).1 js

/-- One channel's buffer after feeding it a list of raw values. -/
def chanFold (W : ℕ) (b : List ℚ) (xs : List ℚ) : List ℚ :=
  xs.foldl (fun acc x => update_buffer acc x W) b

/-- One channel's emitted stream of averages. -/
def chanOutputs (W : ℕ) (b : List ℚ) : List ℚ → List ℚ
  | [] => []
  | x :: xs =>
      let b1 := update_buffer b x W
      calculate_average b1 :: chanOutputs W b1 xs

/-- The last `n` elements of a list (the spec's "last min(W, ·) raw
values ... in arrival order"). -/
def lastN (n : ℕ) (l : List ℚ) : List ℚ := l.drop (l.length - n)

/-- The arithmetic mean, as the spec states it. -/
def mean (l : List ℚ) : ℚ := l.sum / l.length

/-! ## The observer wire format of `server.rs`

`handle_client`'s write task (server.rs lines 87-112).  The only part of
`serde_json::to_string` that cannot be mirrored exactly is the textual
rendering of `f32` values, so the serializers are parametric in a number
renderer; everything else (field order, quoting, `Option` skipping, the
`DATA:`/`STATUS:` tags and the trailing newline) is modelled. -/

/-- JSON string escaping for the characters that occur in this system's
labels (quote and backslash). -/
def jsonEscapeChar (c : Char) : List Char :=
  if c = '"' then ['\\', '"']
  else if c = '\\' then ['\\', '\\']
  else [c]

/-- A JSON string literal. -/
def jsonStr (s : String) : String :=
  String.mk ('"' :: (s.data.map jsonEscapeChar).flatten ++ ['"'])

/-- The derived `Serialize` for `SensorData`: all fields, declaration
order. -/
def sensorDataJson (render : ℚ → String) (d : SensorData) : String :=
  "\x7b\"timestamp\":" ++ toString d.timestamp ++
  ",\"sample\":" ++ jsonStr d.sample ++
  ",\"co_m\":" ++ render d.co_m ++
  ",\"eth_m\":" ++ render d.eth_m ++
  ",\"voc_m\":" ++ render d.voc_m ++
  ",\"no2\":" ++ render d.no2 ++
  ",\"eth_gm\":" ++ render d.eth_gm ++
  ",\"voc_gm\":" ++ render d.voc_gm ++
  ",\"co_gm\":" ++ render d.co_gm ++ "\x7d"

/-- The derived `Serialize` for `StatusMessage`: declaration order, and
every `Option` field carries `skip_serializing_if = "Option::is_none"`,
so `None` fields are omitted entirely. -/
def statusMessageJson (s : StatusMessage) : String :=
  "\x7b\"msg_type\":" ++ jsonStr s.msg_type ++
  (match s.status with | some v => ",\"status\":" ++ jsonStr v | none => "") ++
  (match s.message with | some v => ",\"message\":" ++ jsonStr v | none => "") ++
  (match s.motor with | some v => ",\"motor\":" ++ jsonStr v | none => "") ++
  (match s.speed with | some v => ",\"speed\":" ++ toString v | none => "") ++
  (match s.current with | some v => ",\"current\":" ++ toString v | none => "") ++
  (match s.total with | some v => ",\"total\":" ++ toString v | none => "") ++
  "\x7d"

/-- The write task of `handle_client` (server.rs lines 87-112), per bus
event: the bytes written to the observer socket, or `none` when the
event produces no outbound bytes. -/
def encode_client_message (render : ℚ → String) : Message → Option String
  | .SensorData data => some ("DATA:" ++ sensorDataJson render data ++ "\n")
  | .Status status => some ("STATUS:" ++ statusMessageJson status ++ "\n")
  | .Command _ => none

/-! ## The event bus

Modelled from the spec (section 4.3, Event Bus): the broadcast channel
itself is the tokio library primitive `broadcast::channel(100)`
(`TcpServer::new`, server.rs lines 19-23), outside this repository's
sources.  The spec's contract is modelled as a shared publish log plus
one cursor per subscriber; a receive first skips to the oldest retained
event whenever the subscriber lags more than `capacity` events behind
the head of the log. -/

structure BusState where
  capacity : ℕ
  log : List Message
  cursors : List ℕ
deriving DecidableEq, Repr

/-- A fresh bus; `TcpServer::new` fixes the capacity at 100. -/
def bus_new (capacity : ℕ) : BusState := ⟨capacity, [], []⟩

/-- `subscribe()`: a new cursor at the current end of the log (no
replay of earlier events); returns the subscriber's index. -/
def bus_subscribe (s : BusState) : BusState × ℕ :=
  (⟨s.capacity, s.log, s.cursors ++ [s.log.length]⟩, s.cursors.length)

/-- `TcpServer::broadcast` (server.rs lines 48-50): publishing appends
to the log, never blocks, and ignores the send result. -/
def bus_publish (s : BusState) (m : Message) : BusState :=
  ⟨s.capacity, s.log ++ [m], s.cursors⟩

/-- The events subscriber `i` can still receive: everything after its
cursor, except that a subscriber lagging more than `capacity` behind
has its oldest unread events dropped. -/
def bus_pending (s : BusState) (i : ℕ) : List Message :=
  s.log.drop (max (s.cursors.getD i 0) (s.log.length - s.capacity))

/-- One receive by subscriber `i`: `none` when nothing is pending. -/
def bus_recv (s : BusState) (i : ℕ) : BusState × Option Message :=
  match bus_pending s i with
  | [] => (s, none)
  | m :: _ =>
      (⟨s.capacity, s.log,
        s.cursors.set i (max (s.cursors.getD i 0) (s.log.length - s.capacity) + 1)⟩,
       some m)

/-- Publish each event of `ms` in order, subscriber `i` receiving once
right after each publish; collect what `i` receives. -/
def bus_prompt_run (s : BusState) (i : ℕ) : List Message → BusState × List (Option Message)
  | [] => (s, [])
  | m :: ms =>
      let s1 := bus_publish s m
      let r := bus_recv s1 i
      let rest := bus_prompt_run r.1 i ms
      (rest.1, r.2 :: rest.2)

/-! ## Helper lemmas: the sliding window -/

theorem calculate_average_eq_mean (l : List ℚ) : calculate_average l = mean l := by
  cases l with
  | nil => simp [calculate_average, mean]
  | cons x xs => simp [calculate_average, mean]

theorem lastN_length (n : ℕ) (l : List ℚ) : (lastN n l).length = min n l.length := by
  simp [lastN]; omega

theorem lastN_of_length_le (n : ℕ) (l : List ℚ) (h : l.length ≤ n) : lastN n l = l := by
  simp [lastN, Nat.sub_eq_zero_of_le h]

theorem lastN_append_last (n : ℕ) (l : List ℚ) (x : ℚ) :
    lastN (n + 1) (l ++ [x]) = lastN n l ++ [x] := by
  have hle : l.length - n ≤ l.length := Nat.sub_le _ _
  simp only [lastN, List.length_append, List.length_singleton]
  rw [show l.length + 1 - (n + 1) = l.length - n by omega,
    List.drop_append_of_le_length hle]

theorem drop_one_lastN (W : ℕ) (l : List ℚ) (hW : 1 ≤ W) (h : W ≤ l.length) :
    (lastN W l).drop 1 = lastN (W - 1) l := by
  simp only [lastN, List.drop_drop]
  congr 1
  omega

/-- The central buffer invariant: starting empty, one channel's buffer
always holds exactly the last `min W n` of the `n` values pushed so
far. -/
theorem chanFold_nil_eq (W : ℕ) (hW : 1 ≤ W) (xs : List ℚ) :
    chanFold W [] xs = lastN (min W xs.length) xs := by
  obtain ⟨V, rfl⟩ : ∃ V, W = V + 1 := ⟨W - 1, by omega⟩
  induction xs using List.reverseRecOn with
  | nil => simp [chanFold, lastN]
  | append_singleton ys x ih =>
      rw [chanFold, List.foldl_append]
      rw [show List.foldl (fun acc x => update_buffer acc x (V + 1)) [] ys
            = chanFold (V + 1) [] ys from rfl]
      rw [ih]
      by_cases hc : V + 1 ≤ ys.length
      · have hlen : (lastN (min (V + 1) ys.length) ys).length = V + 1 := by
          rw [lastN_length]; omega
        simp only [List.foldl_cons, List.foldl_nil, update_buffer, hlen, ge_iff_le,
          if_pos (le_refl (V + 1))]
        rw [min_eq_left hc, drop_one_lastN (V + 1) ys (by omega) hc]
        rw [show min (V + 1) (ys ++ [x]).length = V + 1 by simp; omega]
        simp only [Nat.add_sub_cancel]
        rw [lastN_append_last]
      · push_neg at hc
        have hmin : min (V + 1) ys.length = ys.length := by omega
        rw [hmin, lastN_of_length_le _ _ (le_refl _)]
        have hlt : ¬ (V + 1 ≤ ys.length) := by omega
        simp only [List.foldl_cons, List.foldl_nil, update_buffer, ge_iff_le, if_neg hlt]
        rw [show min (V + 1) (ys ++ [x]).length = ys.length + 1 by simp; omega]
        rw [lastN_of_length_le _ _ (by simp)]

theorem chanOutputs_eq_map (W : ℕ) (b : List ℚ) (xs : List ℚ) :
    chanOutputs W b xs = (List.range xs.length).map
      (fun i => calculate_average (chanFold W b (xs.take (i + 1)))) := by
  induction xs generalizing b with
  | nil => simp [chanOutputs]
  | cons x xs ih =>
      rw [chanOutputs, ih (update_buffer b x W)]
      rw [List.length_cons, List.range_succ_eq_map, List.map_cons, List.map_map]
      rfl

theorem chanOutputs_length (W : ℕ) (b : List ℚ) (xs : List ℚ) :
    (chanOutputs W b xs).length = xs.length := by
  rw [chanOutputs_eq_map]; simp

/-- A single channel's `i`-th emitted average is the mean of the last
`min W (i+1)` values fed so far. -/
theorem chanOutputs_get (W : ℕ) (hW : 1 ≤ W) (xs : List ℚ) (i : ℕ) (hi : i < xs.length)
    (h : i < (chanOutputs W [] xs).length) :
    (chanOutputs W [] xs).get ⟨i, h⟩ = mean (lastN (min W (i + 1)) (xs.take (i + 1))) := by
  have h2 : (chanOutputs W [] xs).get ⟨i, h⟩
      = calculate_average (chanFold W [] (xs.take (i + 1))) := by
    rw [List.get_eq_getElem]
    simp only [chanOutputs_eq_map W [] xs, List.getElem_map, List.getElem_range]
  rw [h2, chanFold_nil_eq W hW, calculate_average_eq_mean]
  congr 2
  rw [List.length_take]
  omega

theorem run_processor_length (p : DataProcessor) (ds : List SensorData) :
    ((run_processor p ds).2).length = ds.length := by
  induction ds generalizing p with
  | nil => simp [run_processor]
  | cons d ds ih => simp [run_processor, ih]

theorem run_processor_map_co_m (p : DataProcessor) (ds : List SensorData) :
    ((run_processor p ds).2).map (fun d => d.co_m)
      = chanOutputs p.window_size p.buffers.co_m (ds.map (fun d => d.co_m)) := by
  induction ds generalizing p with
  | nil => simp [run_processor, chanOutputs]
  | cons d ds ih => simp [run_processor, chanOutputs, apply_moving_average, ih]

theorem run_processor_map_eth_m (p : DataProcessor) (ds : List SensorData) :
    ((run_processor p ds).2).map (fun d => d.eth_m)
      = chanOutputs p.window_size p.buffers.eth_m (ds.map (fun d => d.eth_m)) := by
  induction ds generalizing p with
  | nil => simp [run_processor, chanOutputs]
  | cons d ds ih => simp [run_processor, chanOutputs, apply_moving_average, ih]

theorem run_processor_map_voc_m (p : DataProcessor) (ds : List SensorData) :
    ((run_processor p ds).2).map (fun d => d.voc_m)
      = chanOutputs p.window_size p.buffers.voc_m (ds.map (fun d => d.voc_m)) := by
  induction ds generalizing p with
  | nil => simp [run_processor, chanOutputs]
  | cons d ds ih => simp [run_processor, chanOutputs, apply_moving_average, ih]

theorem run_processor_map_no2 (p : DataProcessor) (ds : List SensorData) :
    ((run_processor p ds).2).map (fun d => d.no2)
      = chanOutputs p.window_size p.buffers.no2 (ds.map (fun d => d.no2)) := by
  induction ds generalizing p with
  | nil => simp [run_processor, chanOutputs]
  | cons d ds ih => simp [run_processor, chanOutputs, apply_moving_average, ih]

theorem run_processor_map_eth_gm (p : DataProcessor) (ds : List SensorData) :
    ((run_processor p ds).2).map (fun d => d.eth_gm)
      = chanOutputs p.window_size p.buffers.eth_gm (ds.map (fun d => d.eth_gm)) := by
  induction ds generalizing p with
  | nil => simp [run_processor, chanOutputs]
  | cons d ds ih => simp [run_processor, chanOutputs, apply_moving_average, ih]

theorem run_processor_map_voc_gm (p : DataProcessor) (ds : List SensorData) :
    ((run_processor p ds).2).map (fun d => d.voc_gm)
      = chanOutputs p.window_size p.buffers.voc_gm (ds.map (fun d => d.voc_gm)) := by
  induction ds generalizing p with
  | nil => simp [run_processor, chanOutputs]
  | cons d ds ih => simp [run_processor, chanOutputs, apply_moving_average, ih]

theorem run_processor_map_co_gm (p : DataProcessor) (ds : List SensorData) :
    ((run_processor p ds).2).map (fun d => d.co_gm)
      = chanOutputs p.window_size p.buffers.co_gm (ds.map (fun d => d.co_gm)) := by
  induction ds generalizing p with
  | nil => simp [run_processor, chanOutputs]
  | cons d ds ih => simp [run_processor, chanOutputs, apply_moving_average, ih]

/-- Channel-generic bridge: if the run's outputs project to a
single-channel stream, then the `i`-th output of that channel is the
windowed mean. -/
theorem run_channel_windowed_mean (W : ℕ) (hW : 1 ≤ W) (f : SensorData → ℚ)
    (ds : List SensorData) (i : ℕ) (hi : i < ds.length)
    (h : i < ((run_processor (DataProcessor.new W) ds).2).length)
    (hmap : ((run_processor (DataProcessor.new W) ds).2).map f = chanOutputs W [] (ds.map f)) :
    f (((run_processor (DataProcessor.new W) ds).2).get ⟨i, h⟩)
      = mean (lastN (min W (i + 1)) ((ds.map f).take (i + 1))) := by
  have hlen : i < (((run_processor (DataProcessor.new W) ds).2).map f).length := by
    simpa using h
  have hxs : i < (ds.map f).length := by simpa using hi
  have hchan : i < (chanOutputs W [] (ds.map f)).length := by
    rw [chanOutputs_length]; simpa using hi
  have h1 : (((run_processor (DataProcessor.new W) ds).2).map f).get ⟨i, hlen⟩
      = (chanOutputs W [] (ds.map f)).get ⟨i, hchan⟩ := by
    simp only [List.get_eq_getElem]
    exact List.getElem_of_eq hmap hlen
  have h2 := chanOutputs_get W hW (ds.map f) i hxs hchan
  rw [List.get_eq_getElem, List.getElem_map] at h1
  rw [List.get_eq_getElem] at h1 h2 ⊢
  rw [h1, h2]

/-! ## Helper lemmas: buffer bounds -/

theorem update_buffer_length_le (W : ℕ) (b : List ℚ) (v : ℚ) (hW : 1 ≤ W)
    (hb : b.length ≤ W) : (update_buffer b v W).length ≤ W := by
  simp only [update_buffer, ge_iff_le]
  split <;> simp <;> omega

/-- All seven channel buffers hold at most `window_size` values. -/
def buffers_within (p : DataProcessor) : Prop :=
  p.buffers.co_m.length ≤ p.window_size
  ∧ p.buffers.eth_m.length ≤ p.window_size
  ∧ p.buffers.voc_m.length ≤ p.window_size
  ∧ p.buffers.no2.length ≤ p.window_size
  ∧ p.buffers.eth_gm.length ≤ p.window_size
  ∧ p.buffers.voc_gm.length ≤ p.window_size
  ∧ p.buffers.co_gm.length ≤ p.window_size

theorem process_sensor_data_preserves (p : DataProcessor) (j : Json) (hW : 1 ≤ p.window_size)
    (hp : buffers_within p) :
    (process_sensor_data p j).1.window_size = p.window_size
    ∧ buffers_within (process_sensor_data p j).1 := by
  unfold process_sensor_data
  cases hparse : parseSensorData j with
  | none => exact ⟨rfl, hp⟩
  | some raw =>
      refine ⟨rfl, ?_⟩
      obtain ⟨h1, h2, h3, h4, h5, h6, h7⟩ := hp
      exact ⟨update_buffer_length_le _ _ _ hW h1, update_buffer_length_le _ _ _ hW h2,
        update_buffer_length_le _ _ _ hW h3, update_buffer_length_le _ _ _ hW h4,
        update_buffer_length_le _ _ _ hW h5, update_buffer_length_le _ _ _ hW h6,
        update_buffer_length_le _ _ _ hW h7⟩

theorem process_frames_invariant (W : ℕ) (hW : 1 ≤ W) (js : List Json) :
    (process_frames (DataProcessor.new W) js).window_size = W
    ∧ buffers_within (process_frames (DataProcessor.new W) js) := by
  suffices h : ∀ (p : DataProcessor), p.window_size = W → buffers_within p →
      (process_frames p js).window_size = W ∧ buffers_within (process_frames p js) by
    exact h (DataProcessor.new W) rfl (by simp [DataProcessor.new, buffers_within])
  induction js with
  | nil => intro p hw hp; exact ⟨hw, hp⟩
  | cons j js ih =>
      intro p hw hp
      have step := process_sensor_data_preserves p j (by omega) hp
      exact ih (process_sensor_data p j).1 (by rw [step.1, hw]) step.2

/-! ## Helper lemmas: the event bus model -/

theorem bus_pending_publish_caught_up (s : BusState) (i : ℕ) (m : Message)
    (hcap : 1 ≤ s.capacity) (hcur : s.cursors.getD i 0 = s.log.length) :
    bus_pending (bus_publish s m) i = [m] := by
  simp only [bus_pending, bus_publish, hcur]
  have hmax : max s.log.length ((s.log ++ [m]).length - s.capacity) = s.log.length := by
    simp only [List.length_append, List.length_singleton]
    omega
  rw [hmax, List.drop_append_of_le_length (le_refl _), List.drop_length, List.nil_append]

theorem bus_prompt_run_receives_all (ms : List Message) : ∀ (s : BusState) (i : ℕ),
    1 ≤ s.capacity → i < s.cursors.length → s.cursors.getD i 0 = s.log.length →
    (bus_prompt_run s i ms).2 = ms.map some := by
  induction ms with
  | nil => intro s i _ _ _; rfl
  | cons m ms ih =>
      intro s i hcap hi hcur
      have hpend := bus_pending_publish_caught_up s i m hcap hcur
      simp only [bus_prompt_run, bus_recv, hpend, List.map_cons]
      have hmax : max ((bus_publish s m).cursors.getD i 0)
          ((bus_publish s m).log.length - (bus_publish s m).capacity)
          = s.log.length := by
        simp only [bus_publish, hcur, List.length_append, List.length_singleton]
        omega
      rw [hmax]
      have hrec := ih ⟨s.capacity, s.log ++ [m], s.cursors.set i (s.log.length + 1)⟩ i
        hcap (by simpa using hi)
        (by
          simp only [List.getD_eq_getElem?_getD, List.getElem?_set_self (by simpa using hi)]
          simp)
      simp only [bus_publish] at hrec ⊢
      rw [hrec]

theorem bus_pending_lagged (s : BusState) (i : ℕ)
    (h : s.capacity < s.log.length - s.cursors.getD i 0) :
    bus_pending s i = s.log.drop (s.log.length - s.capacity) := by
  simp only [bus_pending]
  congr 1
  omega

theorem bus_recv_isolated (s : BusState) (i j : ℕ) (hij : i ≠ j) :
    bus_pending ((bus_recv s j).1) i = bus_pending s i := by
  unfold bus_recv
  cases hp : bus_pending s j with
  | nil => rfl
  | cons m rest =>
      simp only [bus_pending]
      rw [List.getD_eq_getElem?_getD, List.getElem?_set_ne (Ne.symm hij),
        ← List.getD_eq_getElem?_getD]

/-! ## Helper lemmas: label normalization -/

theorem char_toNat_ofNat {n : ℕ} (hv : Nat.isValidChar n) : (Char.ofNat n).toNat = n := by
  unfold Char.ofNat
  split
  · simp [Char.toNat, Char.ofNatAux, UInt32.toNat, BitVec.toNat_ofNatLt]
  · rename_i h
    exact absurd hv h

theorem upperChar_toNat (c : Char) :
    (upperChar c).toNat = if 97 ≤ c.toNat ∧ c.toNat ≤ 122 then c.toNat - 32 else c.toNat := by
  unfold upperChar
  split
  · rename_i h
    exact char_toNat_ofNat (Or.inl (by omega))
  · rfl

theorem upperChar_upperChar (c : Char) : upperChar (upperChar c) = upperChar c := by
  by_cases h : 97 ≤ c.toNat ∧ c.toNat ≤ 122
  · have h1 : upperChar c = Char.ofNat (c.toNat - 32) := by
      unfold upperChar; rw [if_pos h]
    have h2 : (Char.ofNat (c.toNat - 32)).toNat = c.toNat - 32 :=
      char_toNat_ofNat (Or.inl (by omega))
    rw [h1]
    unfold upperChar
    rw [if_neg (by rw [h2]; omega)]
  · have h1 : upperChar c = c := by unfold upperChar; rw [if_neg h]
    rw [h1, h1]

theorem isWS_iff (c : Char) : isWS c = true ↔
    (c.toNat = 32 ∨ c.toNat = 9 ∨ c.toNat = 10 ∨ c.toNat = 13 ∨ c.toNat = 11 ∨ c.toNat = 12) := by
  simp [isWS]
  tauto

theorem isWS_upperChar (c : Char) : isWS (upperChar c) = isWS c := by
  rw [Bool.eq_iff_iff, isWS_iff, isWS_iff, upperChar_toNat]
  split <;> omega

theorem capitalizeWord_ne_nil (w : List Char) (h : w ≠ []) : capitalizeWord w ≠ [] := by
  cases w with
  | nil => exact absurd rfl h
  | cons c cs => simp [capitalizeWord]

theorem capitalizeWord_noWS (w : List Char) (h : ∀ c ∈ w, isWS c = false) :
    ∀ c ∈ capitalizeWord w, isWS c = false := by
  cases w with
  | nil => simp [capitalizeWord]
  | cons c cs =>
      intro x hx
      simp only [capitalizeWord, List.mem_cons] at hx
      rcases hx with hx | hx
      · rw [hx, isWS_upperChar]
        exact h c (List.mem_cons_self c cs)
      · exact h x (List.mem_cons_of_mem c hx)

theorem capitalizeWord_idem (w : List Char) :
    capitalizeWord (capitalizeWord w) = capitalizeWord w := by
  cases w with
  | nil => rfl
  | cons c cs => simp [capitalizeWord, upperChar_upperChar]

theorem mem_splitOnP_noWS (l : List Char) :
    ∀ w ∈ List.splitOnP isWS l, ∀ c ∈ w, isWS c = false := by
  induction l with
  | nil =>
      intro w hw
      simp [List.splitOnP_nil] at hw
      simp [hw]
  | cons x xs ih =>
      intro w hw c hc
      rw [List.splitOnP_cons] at hw
      by_cases hx : isWS x = true
      · rw [if_pos hx] at hw
        rcases List.mem_cons.mp hw with h | h
        · subst h; simp at hc
        · exact ih w h c hc
      · rw [if_neg hx] at hw
        obtain ⟨w0, ws, hsplit⟩ := List.exists_cons_of_ne_nil (List.splitOnP_ne_nil isWS xs)
        rw [hsplit] at hw
        simp only [List.modifyHead, List.mem_cons] at hw
        rcases hw with h | h
        · subst h
          rcases List.mem_cons.mp hc with h2 | h2
          · subst h2; exact Bool.eq_false_iff.mpr hx
          · exact ih w0 (hsplit ▸ List.mem_cons_self w0 ws) c h2
        · exact ih w (hsplit ▸ List.mem_cons_of_mem w0 h) c hc

theorem splitWS_words (l : List Char) :
    ∀ w ∈ splitWS l, w ≠ [] ∧ ∀ c ∈ w, isWS c = false := by
  intro w hw
  have hmem : w ∈ List.splitOnP isWS l ∧ (!w.isEmpty) = true := List.mem_filter.mp hw
  refine ⟨?_, mem_splitOnP_noWS l w hmem.1⟩
  intro hnil
  have hk := hmem.2
  rw [hnil] at hk
  simp at hk

theorem splitWS_joinSpace (ws : List (List Char))
    (h : ∀ w ∈ ws, w ≠ [] ∧ ∀ c ∈ w, isWS c = false) :
    splitWS (joinSpace ws) = ws := by
  induction ws with
  | nil => simp [joinSpace, splitWS, List.splitOnP_nil]
  | cons w ws ih =>
      cases ws with
      | nil =>
          obtain ⟨hne, hnoWS⟩ := h w (List.mem_cons_self w [])
          simp only [joinSpace, splitWS]
          rw [List.splitOnP_eq_single isWS w (by
            intro x hx
            rw [hnoWS x hx]
            simp)]
          simp [List.isEmpty_iff, hne]
      | cons w1 ws1 =>
          obtain ⟨hne, hnoWS⟩ := h w (List.mem_cons_self w _)
          have hrest : ∀ v ∈ w1 :: ws1, v ≠ [] ∧ ∀ c ∈ v, isWS c = false := by
            intro v hv
            exact h v (List.mem_cons_of_mem w hv)
          have hjs : joinSpace (w :: w1 :: ws1) = w ++ ' ' :: joinSpace (w1 :: ws1) := rfl
          rw [hjs]
          simp only [splitWS]
          rw [List.splitOnP_first isWS w (by
              intro x hx
              rw [hnoWS x hx]
              simp) ' ' (by decide) (joinSpace (w1 :: ws1))]
          rw [List.filter_cons]
          have hkeep : (!w.isEmpty) = true := by simp [List.isEmpty_iff, hne]
          rw [if_pos hkeep]
          have hsp := ih hrest
          simp only [splitWS] at hsp
          rw [hsp]

theorem titleCase_words (l : List Char) :
    ∀ w ∈ (splitWS l).map capitalizeWord, w ≠ [] ∧ ∀ c ∈ w, isWS c = false := by
  intro w hw
  obtain ⟨v, hv, rfl⟩ := List.mem_map.mp hw
  obtain ⟨hne, hnoWS⟩ := splitWS_words l v hv
  exact ⟨capitalizeWord_ne_nil v hne, capitalizeWord_noWS v hnoWS⟩

theorem titleCase_idem (l : List Char) : titleCase (titleCase l) = titleCase l := by
  unfold titleCase
  rw [splitWS_joinSpace _ (titleCase_words l), List.map_map]
  apply congrArg
  apply List.map_congr_left
  intro w hw
  exact capitalizeWord_idem w

theorem normalize_eq_cases (s : String) :
    normalize_sample_name s = "Daun Kari" ∨ normalize_sample_name s = "Daun Kemangi"
    ∨ normalize_sample_name s = "Daun Jeruk" ∨ normalize_sample_name s = "Daun Serai"
    ∨ normalize_sample_name s = String.mk (titleCase s.data) := by
  unfold normalize_sample_name
  dsimp only
  split_ifs <;> tauto

theorem normalize_fix_kari : normalize_sample_name ("Daun Kari") = "Daun Kari" := by decide

theorem normalize_fix_kemangi : normalize_sample_name ("Daun Kemangi") = "Daun Kemangi" := by
  decide

theorem normalize_fix_jeruk : normalize_sample_name ("Daun Jeruk") = "Daun Jeruk" := by decide

theorem normalize_fix_serai : normalize_sample_name ("Daun Serai") = "Daun Serai" := by decide

/-! ## Concrete fixtures used by the claim theorems -/

/-- One reading with every channel set to `x`. -/
def c1Frame (t : ℕ) (x : ℚ) : SensorData := ⟨t, "Daun Kari", x, x, x, x, x, x, x⟩

/-- The spec's smoothing example: the channel values 2, 4, 6, 8. -/
def c1ExampleFrames : List SensorData :=
  [c1Frame 1 2, c1Frame 2 4, c1Frame 3 6, c1Frame 4 8]

/-- The frame of the repository's own `test_parse_sensor_data` unit
test: the timestamp arrives under the key `ts`. -/
def tsTestPayload : Json :=
  Json.obj [("type", Json.str ("data")), ("ts", Json.num 1496921),
    ("sample", Json.str ("kari")), ("co_m", Json.num 2.56),
    ("eth_m", Json.num 1.68), ("voc_m", Json.num 0.73),
    ("no2", Json.num 0.80), ("eth_gm", Json.num 0.74),
    ("voc_gm", Json.num 0.31), ("co_gm", Json.num 0.04)]

/-- The same frame with the timestamp under the key `timestamp`. -/
def timestampPayload : Json :=
  Json.obj [("type", Json.str ("data")), ("timestamp", Json.num 1496921),
    ("sample", Json.str ("kari")), ("co_m", Json.num 2.56),
    ("eth_m", Json.num 1.68), ("voc_m", Json.num 0.73),
    ("no2", Json.num 0.80), ("eth_gm", Json.num 0.74),
    ("voc_gm", Json.num 0.31), ("co_gm", Json.num 0.04)]

/-- The reading described by `timestampPayload`, before normalization. -/
def rawKari : SensorData :=
  ⟨1496921, "kari", 2.56, 1.68, 0.73, 0.80, 0.74, 0.31, 0.04⟩

/-- A structurally valid `data` frame missing all seven channels. -/
def c4Payload : Json :=
  Json.obj [("type", Json.str ("data")), ("timestamp", Json.num 5),
    ("sample", Json.str ("x"))]

/-- The spec's wire example frame: timestamp 1000, sample "kari". -/
def wireExamplePayload : Json :=
  Json.obj [("type", Json.str ("data")), ("timestamp", Json.num 1000),
    ("sample", Json.str ("kari")), ("co_m", Json.num 2.56),
    ("eth_m", Json.num 1.68), ("voc_m", Json.num 0.73),
    ("no2", Json.num 0.80), ("eth_gm", Json.num 0.74),
    ("voc_gm", Json.num 0.31), ("co_gm", Json.num 0.04)]

/-- The published reading for the wire example: first reading of a
fresh session, so every smoothed channel equals its raw value. -/
def wireExampleReading : SensorData :=
  ⟨1000, "Daun Kari", 2.56, 1.68, 0.73, 0.80, 0.74, 0.31, 0.04⟩

/-- A bus whose subscriber 0 is 102 events behind and whose subscriber
1 is caught up. -/
def c6SlowState : BusState :=
  ⟨100, List.replicate 102 (Message.Command ("x")), [0, 102]⟩

/-! ## The claims -/

/-- Claim C1: for every sequence of readings fed in arrival order to a
`DataProcessor` constructed with window size W ≥ 1, each of the seven
numeric channels of each returned `SensorData` equals the arithmetic
mean of the last `min W (readings-so-far)` raw values pushed for that
channel, in arrival order. -/
theorem c1_moving_average_windowed_mean (W : ℕ) (hW : 1 ≤ W) (ds : List SensorData)
    (i : ℕ) (hi : i < ds.length)
    (h : i < ((run_processor (DataProcessor.new W) ds).2).length) :
    (((run_processor (DataProcessor.new W) ds).2).get ⟨i, h⟩).co_m
        = mean (lastN (min W (i + 1)) ((ds.map (fun d => d.co_m)).take (i + 1)))
    ∧ (((run_processor (DataProcessor.new W) ds).2).get ⟨i, h⟩).eth_m
        = mean (lastN (min W (i + 1)) ((ds.map (fun d => d.eth_m)).take (i + 1)))
    ∧ (((run_processor (DataProcessor.new W) ds).2).get ⟨i, h⟩).voc_m
        = mean (lastN (min W (i + 1)) ((ds.map (fun d => d.voc_m)).take (i + 1)))
    ∧ (((run_processor (DataProcessor.new W) ds).2).get ⟨i, h⟩).no2
        = mean (lastN (min W (i + 1)) ((ds.map (fun d => d.no2)).take (i + 1)))
    ∧ (((run_processor (DataProcessor.new W) ds).2).get ⟨i, h⟩).eth_gm
        = mean (lastN (min W (i + 1)) ((ds.map (fun d => d.eth_gm)).take (i + 1)))
    ∧ (((run_processor (DataProcessor.new W) ds).2).get ⟨i, h⟩).voc_gm
        = mean (lastN (min W (i + 1)) ((ds.map (fun d => d.voc_gm)).take (i + 1)))
    ∧ (((run_processor (DataProcessor.new W) ds).2).get ⟨i, h⟩).co_gm
        = mean (lastN (min W (i + 1)) ((ds.map (fun d => d.co_gm)).take (i + 1))) :=
  ⟨run_channel_windowed_mean W hW _ ds i hi h
      (by simpa [DataProcessor.new] using run_processor_map_co_m (DataProcessor.new W) ds),
   run_channel_windowed_mean W hW _ ds i hi h
      (by simpa [DataProcessor.new] using run_processor_map_eth_m (DataProcessor.new W) ds),
   run_channel_windowed_mean W hW _ ds i hi h
      (by simpa [DataProcessor.new] using run_processor_map_voc_m (DataProcessor.new W) ds),
   run_channel_windowed_mean W hW _ ds i hi h
      (by simpa [DataProcessor.new] using run_processor_map_no2 (DataProcessor.new W) ds),
   run_channel_windowed_mean W hW _ ds i hi h
      (by simpa [DataProcessor.new] using run_processor_map_eth_gm (DataProcessor.new W) ds),
   run_channel_windowed_mean W hW _ ds i hi h
      (by simpa [DataProcessor.new] using run_processor_map_voc_gm (DataProcessor.new W) ds),
   run_channel_windowed_mean W hW _ ds i hi h
      (by simpa [DataProcessor.new] using run_processor_map_co_gm (DataProcessor.new W) ds)⟩

/-- Witness for C1: the spec's own example, window 3, channel co_m fed
2, 4, 6, 8, yields the outputs 2, 3, 4, 6. -/
theorem c1_witness :
    1 ≤ 3 ∧
    (((run_processor (DataProcessor.new 3) c1ExampleFrames).2).get
        ⟨0, by rw [run_processor_length]; norm_num [c1ExampleFrames]⟩).co_m = 2 ∧
    (((run_processor (DataProcessor.new 3) c1ExampleFrames).2).get
        ⟨1, by rw [run_processor_length]; norm_num [c1ExampleFrames]⟩).co_m = 3 ∧
    (((run_processor (DataProcessor.new 3) c1ExampleFrames).2).get
        ⟨2, by rw [run_processor_length]; norm_num [c1ExampleFrames]⟩).co_m = 4 ∧
    (((run_processor (DataProcessor.new 3) c1ExampleFrames).2).get
        ⟨3, by rw [run_processor_length]; norm_num [c1ExampleFrames]⟩).co_m = 6 := by
  refine ⟨by norm_num, ?_, ?_, ?_, ?_⟩
  · rw [(c1_moving_average_windowed_mean 3 (by norm_num) c1ExampleFrames 0
      (by norm_num [c1ExampleFrames]) _).1]
    norm_num [mean, lastN, c1ExampleFrames, c1Frame]
  · rw [(c1_moving_average_windowed_mean 3 (by norm_num) c1ExampleFrames 1
      (by norm_num [c1ExampleFrames]) _).1]
    norm_num [mean, lastN, c1ExampleFrames, c1Frame]
  · rw [(c1_moving_average_windowed_mean 3 (by norm_num) c1ExampleFrames 2
      (by norm_num [c1ExampleFrames]) _).1]
    norm_num [mean, lastN, c1ExampleFrames, c1Frame]
  · rw [(c1_moving_average_windowed_mean 3 (by norm_num) c1ExampleFrames 3
      (by norm_num [c1ExampleFrames]) _).1]
    norm_num [mean, lastN, c1ExampleFrames, c1Frame]

/-- Claim C2 (the code disagrees): the repository's own unit-test frame
supplies the timestamp under the key `ts`, but the `timestamp` field's
serde attribute aliases it to `"timestamp"` itself, so the decoder never
accepts `ts`: `process_sensor_data` returns `none` on that frame, no
event is published for it, while the same frame keyed `timestamp`
decodes. -/
theorem c2_ts_frame_rejected :
    parseSensorData tsTestPayload = none
    ∧ process_sensor_data (DataProcessor.new 3) tsTestPayload = (DataProcessor.new 3, none)
    ∧ handle_arduino_frame (DataProcessor.new 3) ("data") tsTestPayload
        = (DataProcessor.new 3, [])
    ∧ parseSensorData timestampPayload = some rawKari := by
  have h : parseSensorData tsTestPayload = none := by
    simp [parseSensorData, tsTestPayload, Json.getField, Json.asU64, lookupField, bind]
  refine ⟨h, by simp [process_sensor_data, h],
    by simp [handle_arduino_frame, process_sensor_data, h], ?_⟩
  simp [parseSensorData, timestampPayload, Json.getField, Json.asU64, Json.asStr,
    Json.asNum, lookupField, bind, rawKari]

/-- Claim C3, counterexample: sample-label normalization is not
idempotent.  `"DAUN  KARI"` (two spaces) misses the alias table, so one
pass title-cases it to `"DAUN KARI"`; a second pass now matches the
alias and rewrites it to `"Daun Kari"`. -/
theorem c3_not_idempotent :
    normalize_sample_name (normalize_sample_name ("DAUN  KARI"))
      ≠ normalize_sample_name ("DAUN  KARI") := by decide

/-- Claim C3 as amended: normalization stabilizes after two
applications (a third application changes nothing), and "KARI", "kari"
and "Daun Kari" all map to "Daun Kari". -/
theorem c3_normalization_stabilizes :
    (∀ s : String,
      normalize_sample_name (normalize_sample_name (normalize_sample_name s))
        = normalize_sample_name (normalize_sample_name s))
    ∧ normalize_sample_name ("KARI") = "Daun Kari"
    ∧ normalize_sample_name ("kari") = "Daun Kari"
    ∧ normalize_sample_name ("Daun Kari") = "Daun Kari" := by
  refine ⟨?_, by decide, by decide, by decide⟩
  intro s
  rcases normalize_eq_cases s with h | h | h | h | h
  · rw [h, normalize_fix_kari, normalize_fix_kari]
  · rw [h, normalize_fix_kemangi, normalize_fix_kemangi]
  · rw [h, normalize_fix_jeruk, normalize_fix_jeruk]
  · rw [h, normalize_fix_serai, normalize_fix_serai]
  · rw [h]
    rcases normalize_eq_cases (String.mk (titleCase s.data)) with h2 | h2 | h2 | h2 | h2
    · rw [h2, normalize_fix_kari]
    · rw [h2, normalize_fix_kemangi]
    · rw [h2, normalize_fix_jeruk]
    · rw [h2, normalize_fix_serai]
    · have hdata : (String.mk (titleCase s.data)).data = titleCase s.data := rfl
      rw [hdata, titleCase_idem] at h2
      rw [h2, h2]

/-- Claim C4: a `data` frame in which any of the seven channels, the
timestamp, or the sample label is missing or of the wrong type decodes
to `none` — no partial record — and the ingestion dispatch publishes
nothing for it and leaves the smoothing state untouched. -/
theorem c4_invalid_frame_rejected (p : DataProcessor) (j : Json)
    (h : (j.getField ("timestamp")).bind Json.asU64 = none
       ∨ (j.getField ("sample")).bind Json.asStr = none
       ∨ (j.getField ("co_m")).bind Json.asNum = none
       ∨ (j.getField ("eth_m")).bind Json.asNum = none
       ∨ (j.getField ("voc_m")).bind Json.asNum = none
       ∨ (j.getField ("no2")).bind Json.asNum = none
       ∨ (j.getField ("eth_gm")).bind Json.asNum = none
       ∨ (j.getField ("voc_gm")).bind Json.asNum = none
       ∨ (j.getField ("co_gm")).bind Json.asNum = none) :
    parseSensorData j = none ∧ process_sensor_data p j = (p, none) ∧
    handle_arduino_frame p ("data") j = (p, []) := by
  have hp : parseSensorData j = none := by
    rcases h with h | h | h | h | h | h | h | h | h <;>
      simp [parseSensorData, Option.bind_eq_none, bind, h]
  exact ⟨hp, by simp [process_sensor_data, hp],
    by simp [handle_arduino_frame, process_sensor_data, hp]⟩

/-- Witness for C4: a frame with timestamp and sample but no channel
fields is rejected outright and publishes nothing. -/
theorem c4_witness :
    parseSensorData c4Payload = none
    ∧ process_sensor_data (DataProcessor.new 3) c4Payload = (DataProcessor.new 3, none)
    ∧ handle_arduino_frame (DataProcessor.new 3) ("data") c4Payload
        = (DataProcessor.new 3, []) :=
  c4_invalid_frame_rejected (DataProcessor.new 3) c4Payload
    (Or.inr (Or.inr (Or.inl (by simp [c4Payload, Json.getField, lookupField]))))

/-- Claim C5: the observer write path emits exactly one tagged line per
event: `DATA:<json>\n` for a reading, `STATUS:<json>\n` for a status
event, nothing at all for a command; and the spec's example reading
(timestamp 1000, sample "kari") is published with a wire line starting
`DATA:{"timestamp":1000,"sample":"Daun Kari"`. -/
theorem c5_wire_format :
    (∀ (render : ℚ → String) (d : SensorData),
        encode_client_message render (Message.SensorData d)
          = some ("DATA:" ++ sensorDataJson render d ++ "\n"))
    ∧ (∀ (render : ℚ → String) (st : StatusMessage),
        encode_client_message render (Message.Status st)
          = some ("STATUS:" ++ statusMessageJson st ++ "\n"))
    ∧ (∀ (render : ℚ → String) (c : String),
        encode_client_message render (Message.Command c) = none)
    ∧ (process_sensor_data (DataProcessor.new 3) wireExamplePayload).2
        = some wireExampleReading
    ∧ (∀ (render : ℚ → String), ∃ rest : String,
        encode_client_message render (Message.SensorData wireExampleReading)
          = some ("DATA:\x7b\"timestamp\":1000,\"sample\":\"Daun Kari\"" ++ rest)) := by
  refine ⟨fun render d => rfl, fun render st => rfl, fun render c => rfl, ?_, ?_⟩
  · have hparse : parseSensorData wireExamplePayload
        = some ⟨1000, "kari", 2.56, 1.68, 0.73, 0.80, 0.74, 0.31, 0.04⟩ := by
      simp [parseSensorData, wireExamplePayload, Json.getField, Json.asU64, Json.asStr,
        Json.asNum, lookupField, bind]
    have hname : normalize_sample_name ("kari") = "Daun Kari" := by decide
    simp only [process_sensor_data, hparse]
    simp [apply_moving_average, DataProcessor.new, update_buffer, calculate_average,
      wireExampleReading, hname]
  · intro render
    refine ⟨",\"co_m\":" ++ render 2.56 ++ ",\"eth_m\":" ++ render 1.68
      ++ ",\"voc_m\":" ++ render 0.73 ++ ",\"no2\":" ++ render 0.80
      ++ ",\"eth_gm\":" ++ render 0.74 ++ ",\"voc_gm\":" ++ render 0.31
      ++ ",\"co_gm\":" ++ render 0.04 ++ "\x7d\n", ?_⟩
    simp only [encode_client_message, sensorDataJson, wireExampleReading, Option.some.injEq]
    apply String.ext
    simp [String.data_append, jsonStr, jsonEscapeChar,
      show (toString (1000:ℕ)) = "1000" from by decide]

/-- Claim C6: with the bus modelled per the spec (capacity 100 from
`TcpServer::new`), publishing always appends and never blocks; a
subscriber that keeps up receives every published event in publish
order whatever the other subscribers do; a subscriber lagging more than
the capacity keeps exactly the most recent `capacity` events (only its
own oldest unread events are dropped); and one subscriber's receive
never changes another subscriber's pending events. -/
theorem c6_bus_contract :
    (∀ (s : BusState) (m : Message),
        bus_publish s m = ⟨s.capacity, s.log ++ [m], s.cursors⟩)
    ∧ (∀ (s : BusState) (i : ℕ) (ms : List Message),
        1 ≤ s.capacity → i < s.cursors.length → s.cursors.getD i 0 = s.log.length →
        (bus_prompt_run s i ms).2 = ms.map some)
    ∧ (∀ (s : BusState) (i : ℕ),
        s.capacity < s.log.length - s.cursors.getD i 0 →
        bus_pending s i = s.log.drop (s.log.length - s.capacity))
    ∧ (∀ (s : BusState) (i j : ℕ), i ≠ j →
        bus_pending ((bus_recv s j).1) i = bus_pending s i)
    ∧ (bus_new 100).capacity = 100 :=
  ⟨fun _ _ => rfl,
   fun s i ms h1 h2 h3 => bus_prompt_run_receives_all ms s i h1 h2 h3,
   fun s i h => bus_pending_lagged s i h,
   fun s i j h => bus_recv_isolated s i j h,
   rfl⟩

/-- Witness for C6: subscriber 1 of a fresh capacity-100 bus receives
two published commands in order while subscriber 0 sits idle, and a
subscriber that is 102 events behind retains exactly the newest 100. -/
theorem c6_witness :
    (bus_prompt_run ⟨100, [], [5, 0]⟩ 1
        [Message.Command ("a"), Message.Command ("b")]).2
      = [some (Message.Command ("a")), some (Message.Command ("b"))]
    ∧ bus_pending c6SlowState 0 = List.replicate 100 (Message.Command ("x")) := by
  constructor
  · have h := c6_bus_contract.2.1 ⟨100, [], [5, 0]⟩ 1
      [Message.Command ("a"), Message.Command ("b")]
      (by norm_num) (by norm_num) (by simp)
    simpa using h
  · have h := c6_bus_contract.2.2.1 c6SlowState 0 (by simp [c6SlowState])
    simpa [c6SlowState, List.drop_replicate] using h

/-- Claim C7: `process_status_message` populates only the semantic
group of its discriminator — status/message for "status", motor/speed
for "motor", current/total for "calib_progress" — leaves the other two
groups `none`, and leaves any optional field absent from the payload as
`none`. -/
theorem c7_status_groups (j : Json) :
    ((process_status_message j ("status")).motor = none
      ∧ (process_status_message j ("status")).speed = none
      ∧ (process_status_message j ("status")).current = none
      ∧ (process_status_message j ("status")).total = none
      ∧ (j.getField ("status") = none → (process_status_message j ("status")).status = none)
      ∧ (j.getField ("msg") = none → (process_status_message j ("status")).message = none))
    ∧ ((process_status_message j ("motor")).status = none
      ∧ (process_status_message j ("motor")).message = none
      ∧ (process_status_message j ("motor")).current = none
      ∧ (process_status_message j ("motor")).total = none
      ∧ (j.getField ("motor") = none → (process_status_message j ("motor")).motor = none)
      ∧ (j.getField ("speed") = none → (process_status_message j ("motor")).speed = none))
    ∧ ((process_status_message j ("calib_progress")).status = none
      ∧ (process_status_message j ("calib_progress")).message = none
      ∧ (process_status_message j ("calib_progress")).motor = none
      ∧ (process_status_message j ("calib_progress")).speed = none
      ∧ (j.getField ("current") = none
          → (process_status_message j ("calib_progress")).current = none)
      ∧ (j.getField ("total") = none
          → (process_status_message j ("calib_progress")).total = none)) := by
  refine ⟨⟨?_, ?_, ?_, ?_, ?_, ?_⟩, ⟨?_, ?_, ?_, ?_, ?_, ?_⟩, ⟨?_, ?_, ?_, ?_, ?_, ?_⟩⟩ <;>
    simp [process_status_message] <;> (intro h; simp [h])

/-- Witness for C7: a motor frame without a speed field yields a
message with `speed = none` and, being a motor frame, `status = none`. -/
theorem c7_witness :
    (process_status_message (Json.obj [("motor", Json.str ("M1"))]) ("motor")).speed = none
    ∧ (process_status_message (Json.obj [("motor", Json.str ("M1"))]) ("motor")).status
        = none :=
  ⟨((c7_status_groups (Json.obj [("motor", Json.str ("M1"))])).2.1).2.2.2.2.2
      (by simp [Json.getField, lookupField]),
   ((c7_status_groups (Json.obj [("motor", Json.str ("M1"))])).2.1).1⟩

/-- Claim C8: smoothing changes only the channel values — the reading
returned by `apply_moving_average` keeps its input's timestamp and
sample label — and in the pipeline the label is canonicalized before
smoothing, so the published reading is the smoothed version of the
decoded reading with its label already normalized. -/
theorem c8_smoothing_preserves_identity (p : DataProcessor) (d : SensorData) :
    (apply_moving_average p d).2.timestamp = d.timestamp
    ∧ (apply_moving_average p d).2.sample = d.sample
    ∧ ∀ (j : Json) (raw : SensorData), parseSensorData j = some raw →
        (process_sensor_data p j).2
          = some ((apply_moving_average p
              { raw with sample := normalize_sample_name raw.sample }).2) := by
  refine ⟨rfl, rfl, ?_⟩
  intro j raw hparse
  simp [process_sensor_data, hparse]

/-- Witness for C8: the unit-test reading keeps timestamp 1496921 and
its label through smoothing, and its decoded frame is published with the
label normalized before smoothing. -/
theorem c8_witness :
    (apply_moving_average (DataProcessor.new 3) rawKari).2.timestamp = 1496921
    ∧ (apply_moving_average (DataProcessor.new 3) rawKari).2.sample = "kari"
    ∧ (process_sensor_data (DataProcessor.new 3) timestampPayload).2
        = some ((apply_moving_average (DataProcessor.new 3)
            { rawKari with sample := normalize_sample_name rawKari.sample }).2) :=
  ⟨(c8_smoothing_preserves_identity (DataProcessor.new 3) rawKari).1,
   (c8_smoothing_preserves_identity (DataProcessor.new 3) rawKari).2.1,
   (c8_smoothing_preserves_identity (DataProcessor.new 3) rawKari).2.2 timestampPayload rawKari
     (by simp [parseSensorData, timestampPayload, Json.getField, Json.asU64, Json.asStr,
       Json.asNum, lookupField, bind, rawKari])⟩

/-- Claim C9: a successfully parsed frame whose discriminator is none
of data/status/motor/calib_progress publishes nothing and leaves the
smoothing state unchanged; the dispatch returns normally, so the
session continues with the next line. -/
theorem c9_unknown_type_ignored (p : DataProcessor) (t : String) (j : Json)
    (h1 : t ≠ "data") (h2 : t ≠ "status") (h3 : t ≠ "motor") (h4 : t ≠ "calib_progress") :
    handle_arduino_frame p t j = (p, []) := by
  simp [handle_arduino_frame, h1, h2, h3, h4]

/-- Witness for C9: the spec's example discriminator "foo". -/
theorem c9_witness :
    handle_arduino_frame (DataProcessor.new 3) ("foo") Json.null = (DataProcessor.new 3, []) :=
  c9_unknown_type_ignored (DataProcessor.new 3) ("foo") Json.null
    (by decide) (by decide) (by decide) (by decide)

/-- Claim C10: with window size W ≥ 1, `update_buffer` appends exactly
one element, evicting the oldest first when the buffer is already at
length W; `apply_moving_average` performs exactly one such push per
channel; and after any sequence of frames every channel buffer of a
fresh processor holds at most W elements. -/
theorem c10_buffer_invariant (W : ℕ) (hW : 1 ≤ W) :
    (∀ (b : List ℚ) (v : ℚ), b.length < W → update_buffer b v W = b ++ [v])
    ∧ (∀ (b : List ℚ) (v : ℚ), b.length = W → update_buffer b v W = b.drop 1 ++ [v])
    ∧ (∀ (b : List ℚ) (v : ℚ), b.length ≤ W →
        (update_buffer b v W).length = min (b.length + 1) W)
    ∧ (∀ (p : DataProcessor) (d : SensorData),
        (apply_moving_average p d).1.buffers.co_m
            = update_buffer p.buffers.co_m d.co_m p.window_size
        ∧ (apply_moving_average p d).1.buffers.eth_m
            = update_buffer p.buffers.eth_m d.eth_m p.window_size
        ∧ (apply_moving_average p d).1.buffers.voc_m
            = update_buffer p.buffers.voc_m d.voc_m p.window_size
        ∧ (apply_moving_average p d).1.buffers.no2
            = update_buffer p.buffers.no2 d.no2 p.window_size
        ∧ (apply_moving_average p d).1.buffers.eth_gm
            = update_buffer p.buffers.eth_gm d.eth_gm p.window_size
        ∧ (apply_moving_average p d).1.buffers.voc_gm
            = update_buffer p.buffers.voc_gm d.voc_gm p.window_size
        ∧ (apply_moving_average p d).1.buffers.co_gm
            = update_buffer p.buffers.co_gm d.co_gm p.window_size)
    ∧ (∀ (js : List Json),
        (process_frames (DataProcessor.new W) js).window_size = W
        ∧ buffers_within (process_frames (DataProcessor.new W) js)) := by
  refine ⟨?_, ?_, ?_, ?_, fun js => process_frames_invariant W hW js⟩
  · intro b v hb
    rw [update_buffer, if_neg (by omega)]
  · intro b v hb
    rw [update_buffer, if_pos (by omega)]
  · intro b v hb
    simp only [update_buffer, ge_iff_le]
    split <;> simp <;> omega
  · intro p d
    exact ⟨rfl, rfl, rfl, rfl, rfl, rfl, rfl⟩

/-- Witness for C10: with W = 3, a full buffer [2, 4, 6] evicts its
oldest on a push of 8, and after one decoded frame the co_m buffer of a
fresh processor is within the bound. -/
theorem c10_witness :
    update_buffer [2, 4, 6] 8 3 = ([2, 4, 6] : List ℚ).drop 1 ++ [8]
    ∧ (process_frames (DataProcessor.new 3) [timestampPayload]).buffers.co_m.length ≤ 3 := by
  constructor
  · exact (c10_buffer_invariant 3 (by norm_num)).2.1 [2, 4, 6] 8 (by norm_num)
  · have h := (c10_buffer_invariant 3 (by norm_num)).2.2.2.2 [timestampPayload]
    have h2 := h.2.1
    rw [h.1] at h2
    exact h2

end Enose
